import Mathlib

/-!
Verification development for the go-chord repository: a shallow embedding of
the ring-formation, lookup and gRPC-transport code, with theorems settling
the specification claims about it.

Conventions of the embedding:
* Go byte slices are `List Nat`, Go durations and instants are `Nat`.
* A Go pointer that may be nil is an `Option`.
* A Go function that can return an error returns `Except` or carries an
  `Option NetErr` component.
* A Go runtime panic (index out of range, nil dereference) is modelled by
  an `Option.none` result of the embedded function.
* Results of calls into code outside the embedded fragment (remote handlers,
  dialing) are supplied as explicit oracle arguments.
-/

namespace Chord

/-- A vnode record as on the wire, from net.proto: id bytes, host address
and opaque metadata. -/
structure Vnode where
  Id : List Nat
  Host : String
  Meta : List Nat
deriving DecidableEq, Repr

/-- The zero-valued vnode record, Go `&Vnode` with no fields set. -/
def zeroVnode : Vnode := ⟨[], "", []⟩

/-- The distinct kinds of error an outbound transport operation can surface.
`timedOut` embeds the package-level sentinel `errTimedOut`; `shutdown` the
"TCP transport is shutdown" error from `getConn`; `dial` a gRPC dial
failure; `remote` an error returned by the remote serve handler; `app` an
error built by the protocol layer itself with `fmt.Errorf`. -/
inductive NetErr where
  | timedOut
  | shutdown
  | dial (msg : String)
  | remote (msg : String)
  | app (msg : String)
deriving DecidableEq, Repr

/-! ### Ring.LookupHash (chord.go, lines 229-249) -/

/-- The trim loop of `Ring.LookupHash`:

    for successors[len(successors)-1] == nil (
        successors = successors[:len(successors)-1]
    )

Reading `successors[len(successors)-1]` of an empty slice is an
index-out-of-range panic, modelled as `none`. -/
def trimNilTail (l : List (Option Vnode)) : Option (List (Option Vnode)) :=
  match h : l.getLast? with
  | none => none
  | some none => trimNilTail l.dropLast
  | some (some _) => some l
termination_by l.length
decreasing_by
  have hne : l ≠ [] := by
    intro hnil
    subst hnil
    simp at h
  have hpos : 0 < l.length := List.length_pos.mpr hne
  simp only [List.length_dropLast]
  omega

/-- Embedding of `Ring.LookupHash(n, hash)` from chord.go: the bound check
against `NumSuccessors`, the `FindSuccessors` call on the nearest local
vnode (its outcome supplied as the oracle `findRes`), and the trim loop.
The result triple is (predecessor, successors, error); an overall `none`
models a Go runtime panic. -/
def lookupHash (numSuccessors n : Nat) (nearest : Vnode)
    (findRes : Except NetErr (List (Option Vnode))) :
    Option (Option Vnode × List (Option Vnode) × Option NetErr) :=
  if n > numSuccessors then
    some (none, [], some (NetErr.app "cannot ask for more successors than NumSuccessors"))
  else
    match findRes with
    | Except.error e => some (some nearest, [], some e)
    | Except.ok succs =>
      match trimNilTail succs with
      | none => none
      | some t => some (some nearest, t, none)

/-- Unfolding: the trim loop panics immediately on an empty list. -/
theorem trimNilTail_nil : trimNilTail [] = none := by
  rw [trimNilTail]
  rfl

/-- Unfolding: a list ending in a present entry is returned unchanged. -/
theorem trimNilTail_concat_some (xs : List (Option Vnode)) (c : Vnode) :
    trimNilTail (xs ++ [some c]) = some (xs ++ [some c]) := by
  rw [trimNilTail]
  split
  · rename_i heq
    simp [List.getLast?_concat] at heq
  · rename_i heq
    rw [List.getLast?_concat] at heq
    cases heq
  · rfl

/-- Unfolding: a trailing absent entry is dropped and the loop continues. -/
theorem trimNilTail_concat_none (xs : List (Option Vnode)) :
    trimNilTail (xs ++ [none]) = trimNilTail xs := by
  rw [trimNilTail]
  split
  · rename_i heq
    simp [List.getLast?_concat] at heq
  · rename_i heq
    rw [List.dropLast_concat]
  · rename_i v heq
    rw [List.getLast?_concat] at heq
    cases heq

/-- The trim loop succeeds on every list containing at least one present
entry, and then computes exactly the list with its trailing absent entries
removed. -/
theorem trimNilTail_of_exists_isSome :
    ∀ l : List (Option Vnode), (∃ x ∈ l, x.isSome) →
      trimNilTail l = some ((l.reverse.dropWhile (fun x => x.isNone)).reverse) := by
  intro l
  induction l using List.reverseRecOn with
  | nil =>
    intro hex
    rcases hex with ⟨x, hx, _⟩
    simp at hx
  | append_singleton xs x ih =>
    intro hex
    cases x with
    | some c =>
      rw [trimNilTail_concat_some]
      simp [List.dropWhile]
    | none =>
      rw [trimNilTail_concat_none]
      have hex2 : ∃ y ∈ xs, Option.isSome y := by
        rcases hex with ⟨y, hy, hys⟩
        rcases List.mem_append.mp hy with hy1 | hy2
        · exact ⟨y, hy1, hys⟩
        · simp at hy2
          subst hy2
          simp at hys
      rw [ih hex2]
      simp [List.dropWhile]

/-- The trim loop panics on an empty list and on an all-absent list. -/
theorem trimNilTail_panics_on_absent :
    trimNilTail [] = none ∧ trimNilTail [none, none] = none := by
  constructor
  · exact trimNilTail_nil
  · rw [show ([none, none] : List (Option Vnode)) = ([none] ++ [none]) by rfl]
    rw [trimNilTail_concat_none]
    rw [show ([none] : List (Option Vnode)) = ([] ++ [none]) by rfl]
    rw [trimNilTail_concat_none]
    exact trimNilTail_nil

/-- C1 counterexample: with n = 1 <= NumSuccessors = 8 and a FindSuccessors
call that returns without error, LookupHash's trim step indexes out of
bounds (runtime panic, modelled as none) when the returned successor list
is empty, and likewise when all its entries are absent — the claim asserts
the trim is safe for exactly these lists. -/
theorem lookupHash_panics_on_absent_reply :
    lookupHash 8 1 ⟨[1], "host1", []⟩ (Except.ok []) = none ∧
    lookupHash 8 1 ⟨[1], "host1", []⟩ (Except.ok [none, none]) = none := by
  constructor
  · simp [lookupHash, trimNilTail_nil]
  · simp [lookupHash, trimNilTail_panics_on_absent.2]

/-- C1 amended: for every call with n <= NumSuccessors whose underlying
FindSuccessors call returns without error a successor list containing at
least one present entry, LookupHash trims the trailing absent entries and
returns the trimmed list with a nil error; the trim is safe exactly in
that case, not for an empty or all-absent list. -/
theorem lookupHash_trims_when_entry_present
    (numSuccessors n : Nat) (nearest : Vnode) (succs : List (Option Vnode))
    (hn : n ≤ numSuccessors) (hsome : ∃ x ∈ succs, x.isSome) :
    lookupHash numSuccessors n nearest (Except.ok succs) =
      some (some nearest, (succs.reverse.dropWhile (fun x => x.isNone)).reverse, none) := by
  rw [lookupHash, if_neg (by omega)]
  rw [trimNilTail_of_exists_isSome succs hsome]

/-- C1 amended, witness at a concrete input. -/
theorem lookupHash_trims_when_entry_present_witness :
    lookupHash 8 2 ⟨[1], "host1", []⟩
        (Except.ok [some ⟨[2], "host2", []⟩, none]) =
      some (some ⟨[1], "host1", []⟩, [some ⟨[2], "host2", []⟩], none) := by
  have h := lookupHash_trims_when_entry_present 8 2 ⟨[1], "host1", []⟩
    [some ⟨[2], "host2", []⟩, none] (by omega)
    ⟨some ⟨[2], "host2", []⟩, by simp, rfl⟩
  simpa using h

/-! ### GRPCTransport state and connection pool (net_grpc.go) -/

/-- An outbound pooled connection, Go struct rpcOutConn: target host, an
identifier standing for the underlying grpc client connection, and the
last-used instant. -/
structure OutConn where
  host : String
  id : Nat
  used : Nat
deriving DecidableEq, Repr

/-- The mutable state of a GRPCTransport touched by the embedded fragment:
the local vnode registry cs.local keyed by the stringified vnode id (here
the id bytes), the per-host connection pool cs.pool, a ledger of
connections that have been closed (conn.Close is a side effect in Go; the
ledger records each call), and the shutdown flag. -/
structure TransState where
  localReg : List (List Nat × Vnode)
  pool : List (String × List OutConn)
  closed : List OutConn
  shutdown : Bool
deriving DecidableEq, Repr

/-- The pool read in getConn: look up the free list of the host and, when
it is non-empty, take its last element and store back the shortened list. -/
def poolPop : List (String × List OutConn) → String →
    Option (OutConn × List (String × List OutConn))
  | [], _ => none
  | (k, l) :: rest, host =>
    if k = host then
      match l.getLast? with
      | none => none
      | some c => some (c, (k, l.dropLast) :: rest)
    else
      (poolPop rest host).map (fun p => (p.1, (k, l) :: p.2))

/-- The pool write in returnConn: append a connection to the free list of
its host. -/
def poolAppend : List (String × List OutConn) → String → OutConn →
    List (String × List OutConn)
  | [], host, c => [(host, [c])]
  | (k, l) :: rest, host, c =>
    if k = host then (k, l ++ [c]) :: rest
    else (k, l) :: poolAppend rest host c

/-- Embedding of GRPCTransport.getConn: fail when the shutdown flag is
set, otherwise reuse the most recently pooled connection for the host, or
dial a new one (the dial outcome is the oracle argument). -/
def getConn (st : TransState) (dial : Except String OutConn) (host : String) :
    Except NetErr (OutConn × TransState) :=
  if st.shutdown then Except.error NetErr.shutdown
  else
    match poolPop st.pool host with
    | some (c, pool1) => Except.ok (c, { st with pool := pool1 })
    | none =>
      match dial with
      | Except.ok c => Except.ok (c, st)
      | Except.error e => Except.error (NetErr.dial e)

/-- Embedding of GRPCTransport.returnConn: refresh the last-used instant,
then either close the connection (transport shut down) or push it back
into the pool. -/
def returnConn (now : Nat) (st : TransState) (c : OutConn) : TransState :=
  let c2 := { c with used := now }
  if st.shutdown then { st with closed := c2 :: st.closed }
  else { st with pool := poolAppend st.pool c2.host c2 }

/-- The outbound-call pipeline shared verbatim by the seven client methods
of GRPCTransport: get a connection, issue the serve call asynchronously
(its outcome is the oracle serveRes; the goroutine returns the connection
once the call completes), and race the response against the per-call
timeout. withinTimeout says whether the handler answered within the
configured timeout; the goroutine completes and returns the connection
either way. -/
def outboundCall {α : Type} (now : Nat) (st : TransState)
    (dial : Except String OutConn) (host : String)
    (serveRes : Except String α) (withinTimeout : Bool) :
    Except NetErr α × TransState :=
  match getConn st dial host with
  | Except.error e => (Except.error e, st)
  | Except.ok (c, st1) =>
    let st2 := returnConn now st1 c
    let res : Except NetErr α :=
      match serveRes with
      | Except.error e => Except.error (NetErr.remote e)
      | Except.ok a => Except.ok a
    (if withinTimeout then res else Except.error NetErr.timedOut, st2)

/-- GRPCTransport.ListVnodes (client side). -/
def ListVnodes (now : Nat) (st : TransState) (dial : Except String OutConn)
    (host : String) (serveRes : Except String (List Vnode))
    (withinTimeout : Bool) : Except NetErr (List Vnode) × TransState :=
  outboundCall now st dial host serveRes withinTimeout

/-- GRPCTransport.Ping (client side). -/
def Ping (now : Nat) (st : TransState) (dial : Except String OutConn)
    (target : Vnode) (serveRes : Except String Bool)
    (withinTimeout : Bool) : Except NetErr Bool × TransState :=
  outboundCall now st dial target.Host serveRes withinTimeout

/-- GRPCTransport.GetPredecessor (client side). -/
def GetPredecessor (now : Nat) (st : TransState) (dial : Except String OutConn)
    (vn : Vnode) (serveRes : Except String Vnode)
    (withinTimeout : Bool) : Except NetErr Vnode × TransState :=
  outboundCall now st dial vn.Host serveRes withinTimeout

/-- GRPCTransport.Notify (client side). -/
def Notify (now : Nat) (st : TransState) (dial : Except String OutConn)
    (target self : Vnode) (serveRes : Except String (List (Option Vnode)))
    (withinTimeout : Bool) : Except NetErr (List (Option Vnode)) × TransState :=
  outboundCall now st dial target.Host serveRes withinTimeout

/-- GRPCTransport.FindSuccessors (client side). -/
def FindSuccessors (now : Nat) (st : TransState) (dial : Except String OutConn)
    (vn : Vnode) (n : Nat) (k : List Nat)
    (serveRes : Except String (List (Option Vnode)))
    (withinTimeout : Bool) : Except NetErr (List (Option Vnode)) × TransState :=
  outboundCall now st dial vn.Host serveRes withinTimeout

/-- GRPCTransport.ClearPredecessor (client side). -/
def ClearPredecessor (now : Nat) (st : TransState) (dial : Except String OutConn)
    (target self : Vnode) (serveRes : Except String Unit)
    (withinTimeout : Bool) : Except NetErr Unit × TransState :=
  outboundCall now st dial target.Host serveRes withinTimeout

/-- GRPCTransport.SkipSuccessor (client side). -/
def SkipSuccessor (now : Nat) (st : TransState) (dial : Except String OutConn)
    (target self : Vnode) (serveRes : Except String Unit)
    (withinTimeout : Bool) : Except NetErr Unit × TransState :=
  outboundCall now st dial target.Host serveRes withinTimeout

/-! ### Server-side handlers (net_grpc.go) -/

/-- Embedding of GRPCTransport.get: look up a vnode in the local registry
by its stringified id. -/
def regGet (reg : List (List Nat × Vnode)) (vn : Vnode) : Option Vnode :=
  (reg.find? (fun e => e.1 = vn.Id)).map (fun e => e.2)

/-- Embedding of GRPCTransport.PingServe: answer true when the target
vnode is registered, the not-found error otherwise. The state is returned
unchanged, as the handler only reads the registry. -/
def PingServe (st : TransState) (vn : Vnode) :
    (Bool × Option String) × TransState :=
  if (regGet st.localReg vn).isSome then ((true, none), st)
  else ((false, some ("target vnode not found")), st)

/-- Embedding of GRPCTransport.GetPredecessorServe: when the target vnode
is registered, run its handler (outcome given as the oracle handlerRes);
a nil predecessor with nil error is replaced by the zero-valued vnode
record. -/
def GetPredecessorServe (st : TransState) (vn : Vnode)
    (handlerRes : Except String (Option Vnode)) :
    (Option Vnode × Option String) × TransState :=
  if (regGet st.localReg vn).isSome then
    match handlerRes with
    | Except.error e => ((none, some e), st)
    | Except.ok none => ((some zeroVnode, none), st)
    | Except.ok (some p) => ((some p, none), st)
  else ((none, some ("target vnode not found")), st)

/-- Modelled from the spec: trimSlice (util.go) is not under src/. Per the
spec, trailing absent entries of a partial successor list are trimmed,
never surfaced as an error; trimSlice drops the trailing absent entries
of the list. -/
def trimSlice (l : List (Option Vnode)) : List (Option Vnode) :=
  (l.reverse.dropWhile (fun x => x.isNone)).reverse

/-- The error component of a handler outcome as Go reads it: some for an
error return, none for a success. -/
def errOf {α : Type} : Except String α → Option String
  | Except.error e => some e
  | Except.ok _ => none

/-- Embedding of GRPCTransport.ListVnodesServe: answer every locally
registered vnode, never an error. -/
def ListVnodesServe (st : TransState) (host : String) :
    (List Vnode × Option String) × TransState :=
  ((st.localReg.map (fun e => e.2), none), st)

/-- Embedding of GRPCTransport.NotifyServe: when the target vnode is
registered, run its Notify handler (outcome given as the oracle
handlerRes) and answer its trimmed successor list or its error;
otherwise the not-found error with an empty response list. -/
def NotifyServe (st : TransState) (target self : Vnode)
    (handlerRes : Except String (List (Option Vnode))) :
    (List (Option Vnode) × Option String) × TransState :=
  if (regGet st.localReg target).isSome then
    match handlerRes with
    | Except.error e => (([], some e), st)
    | Except.ok nodes => ((trimSlice nodes, none), st)
  else (([], some ("target vnode not found")), st)

/-- Embedding of GRPCTransport.FindSuccessorsServe: same shape as
NotifyServe over the vnode's FindSuccessors handler. -/
def FindSuccessorsServe (st : TransState) (vn : Vnode) (n : Nat)
    (key : List Nat) (handlerRes : Except String (List (Option Vnode))) :
    (List (Option Vnode) × Option String) × TransState :=
  if (regGet st.localReg vn).isSome then
    match handlerRes with
    | Except.error e => (([], some e), st)
    | Except.ok nodes => ((trimSlice nodes, none), st)
  else (([], some ("target vnode not found")), st)

/-- Embedding of GRPCTransport.ClearPredecessorServe: run the registered
handler (its error outcome is the oracle handlerErr); unregistered ids
get the not-found error. The response message is empty either way. -/
def ClearPredecessorServe (st : TransState) (target self : Vnode)
    (handlerErr : Option String) : Option String × TransState :=
  if (regGet st.localReg target).isSome then (handlerErr, st)
  else (some ("target vnode not found"), st)

/-- Embedding of GRPCTransport.SkipSuccessorServe: same shape as
ClearPredecessorServe over the vnode's SkipSuccessor handler. -/
def SkipSuccessorServe (st : TransState) (target self : Vnode)
    (handlerErr : Option String) : Option String × TransState :=
  if (regGet st.localReg target).isSome then (handlerErr, st)
  else (some ("target vnode not found"), st)

/-- Occurrences of a connection id in the pool. -/
def poolCount : List (String × List OutConn) → Nat → Nat
  | [], _ => 0
  | (_, l) :: rest, n => (l.filter (fun c => c.id = n)).length + poolCount rest n

/-- Occurrences of a connection id in the transport state: pooled plus
closed. -/
def connCount (st : TransState) (n : Nat) : Nat :=
  poolCount st.pool n + (st.closed.filter (fun c => c.id = n)).length

/-- getConn refuses every checkout once the shutdown flag is set. -/
theorem getConn_shutdown (st : TransState) (dial : Except String OutConn)
    (host : String) (h : st.shutdown = true) :
    getConn st dial host = Except.error NetErr.shutdown := by
  simp [getConn, h]

/-- Appending a connection to a host free list adds exactly one occurrence
of its id to the pool. -/
theorem poolCount_poolAppend (pool : List (String × List OutConn))
    (host : String) (c : OutConn) (n : Nat) :
    poolCount (poolAppend pool host c) n =
      poolCount pool n + (if c.id = n then 1 else 0) := by
  induction pool with
  | nil =>
    by_cases hc : c.id = n <;> simp [poolAppend, poolCount, List.filter, hc]
  | cons e rest ih =>
    obtain ⟨k, l⟩ := e
    by_cases hk : k = host
    · by_cases hc : c.id = n <;>
        simp [poolAppend, hk, poolCount, List.filter_append, List.filter, hc] <;>
        omega
    · simp only [poolAppend, if_neg hk, poolCount]
      rw [ih]
      omega

/-- returnConn adds exactly one occurrence of the returned connection's id
to the state (pooled when the transport is live, closed when shut down). -/
theorem connCount_returnConn (now : Nat) (st : TransState) (c : OutConn)
    (n : Nat) :
    connCount (returnConn now st c) n =
      connCount st n + (if c.id = n then 1 else 0) := by
  cases hsd : st.shutdown with
  | true =>
    by_cases hc : c.id = n <;>
      simp [returnConn, connCount, hsd, List.filter, hc] <;> omega
  | false =>
    simp [returnConn, connCount, hsd, poolCount_poolAppend]
    omega

/-- C4: for each of the seven outbound operations, when a connection was
obtained but the remote handler does not complete within the configured
timeout, the caller gets the distinct timeout sentinel regardless of the
handler's eventual outcome, and that sentinel differs from shutdown, dial
and remote-call errors. -/
theorem outbound_timeout_sentinel :
    (∀ (now : Nat) (st : TransState) (dial : Except String OutConn)
        (host : String) (serveRes : Except String (List Vnode))
        (c : OutConn) (st1 : TransState),
        getConn st dial host = Except.ok (c, st1) →
        (ListVnodes now st dial host serveRes false).1 =
          Except.error NetErr.timedOut) ∧
    (∀ now st dial (target : Vnode) (serveRes : Except String Bool) c st1,
        getConn st dial target.Host = Except.ok (c, st1) →
        (Ping now st dial target serveRes false).1 =
          Except.error NetErr.timedOut) ∧
    (∀ now st dial (vn : Vnode) (serveRes : Except String Vnode) c st1,
        getConn st dial vn.Host = Except.ok (c, st1) →
        (GetPredecessor now st dial vn serveRes false).1 =
          Except.error NetErr.timedOut) ∧
    (∀ now st dial (target self : Vnode)
        (serveRes : Except String (List (Option Vnode))) c st1,
        getConn st dial target.Host = Except.ok (c, st1) →
        (Notify now st dial target self serveRes false).1 =
          Except.error NetErr.timedOut) ∧
    (∀ now st dial (vn : Vnode) (n : Nat) (k : List Nat)
        (serveRes : Except String (List (Option Vnode))) c st1,
        getConn st dial vn.Host = Except.ok (c, st1) →
        (FindSuccessors now st dial vn n k serveRes false).1 =
          Except.error NetErr.timedOut) ∧
    (∀ now st dial (target self : Vnode) (serveRes : Except String Unit) c st1,
        getConn st dial target.Host = Except.ok (c, st1) →
        (ClearPredecessor now st dial target self serveRes false).1 =
          Except.error NetErr.timedOut) ∧
    (∀ now st dial (target self : Vnode) (serveRes : Except String Unit) c st1,
        getConn st dial target.Host = Except.ok (c, st1) →
        (SkipSuccessor now st dial target self serveRes false).1 =
          Except.error NetErr.timedOut) ∧
    (∀ s, NetErr.timedOut ≠ NetErr.dial s) ∧
    (∀ s, NetErr.timedOut ≠ NetErr.remote s) ∧
    NetErr.timedOut ≠ NetErr.shutdown := by
  refine ⟨?_, ?_, ?_, ?_, ?_, ?_, ?_, ?_, ?_, ?_⟩
  · intro now st dial host serveRes c st1 h
    simp [ListVnodes, outboundCall, h]
  · intro now st dial target serveRes c st1 h
    simp [Ping, outboundCall, h]
  · intro now st dial vn serveRes c st1 h
    simp [GetPredecessor, outboundCall, h]
  · intro now st dial target self serveRes c st1 h
    simp [Notify, outboundCall, h]
  · intro now st dial vn n k serveRes c st1 h
    simp [FindSuccessors, outboundCall, h]
  · intro now st dial target self serveRes c st1 h
    simp [ClearPredecessor, outboundCall, h]
  · intro now st dial target self serveRes c st1 h
    simp [SkipSuccessor, outboundCall, h]
  · intro s hcontra
    cases hcontra
  · intro s hcontra
    cases hcontra
  · intro hcontra
    cases hcontra

/-- C4 witness: a concrete late Ping returns the timeout sentinel. -/
theorem outbound_timeout_sentinel_witness :
    (Ping 5 ⟨[], [], [], false⟩ (Except.ok ⟨"hostA", 1, 0⟩)
        ⟨[7], "hostA", []⟩ (Except.ok true) false).1 =
      Except.error NetErr.timedOut := by
  exact outbound_timeout_sentinel.2.1 5 ⟨[], [], [], false⟩
    (Except.ok ⟨"hostA", 1, 0⟩) ⟨[7], "hostA", []⟩ (Except.ok true)
    ⟨"hostA", 1, 0⟩ ⟨[], [], [], false⟩ (by rfl)

/-- C2 counterexample: a target vnode registered in this process's own
registry, yet Ping's outcome is decided by the connection pool: with the
transport shut down the call fails with the pool's shutdown error, while
the registered handler (PingServe) would have answered true with no
error. So the transport does use the connection pool for locally
registered vnodes rather than calling the handler directly. -/
theorem ping_pools_despite_registration :
    (Ping 0 ⟨[([7], ⟨[7], "hostA", []⟩)], [], [], true⟩
        (Except.ok ⟨"hostA", 1, 0⟩) ⟨[7], "hostA", []⟩
        (Except.ok true) true).1 = Except.error NetErr.shutdown ∧
    (regGet [([7], ⟨[7], "hostA", []⟩)] ⟨[7], "hostA", []⟩).isSome = true ∧
    (PingServe ⟨[([7], ⟨[7], "hostA", []⟩)], [], [], true⟩
        ⟨[7], "hostA", []⟩).1 = (true, none) := by
  exact ⟨rfl, by decide, by decide⟩

/-- C2 amended: every outbound transport operation goes through the
connection pool regardless of local registration — once the transport is
shut down each of the seven operations fails with the pool's shutdown
error even for a registered target — and the direct-dispatch behaviour
the claim describes exists only in the server-side serve handlers: each
of the six vnode-addressed handlers (Ping, GetPredecessor, Notify,
FindSuccessors, ClearPredecessor, SkipSuccessor) produces the not-found
error exactly when the target id is unregistered, passing the registered
handler's own result and error through otherwise, and ListVnodesServe
never errors. -/
theorem outbound_ops_always_use_pool :
    (∀ (now : Nat) (st : TransState) (dial : Except String OutConn)
        (host : String) (serveRes : Except String (List Vnode)) w,
        st.shutdown = true →
        (ListVnodes now st dial host serveRes w).1 =
          Except.error NetErr.shutdown) ∧
    (∀ now (st : TransState) dial (target : Vnode)
        (serveRes : Except String Bool) w, st.shutdown = true →
        (Ping now st dial target serveRes w).1 =
          Except.error NetErr.shutdown) ∧
    (∀ now (st : TransState) dial (vn : Vnode)
        (serveRes : Except String Vnode) w, st.shutdown = true →
        (GetPredecessor now st dial vn serveRes w).1 =
          Except.error NetErr.shutdown) ∧
    (∀ now (st : TransState) dial (target self : Vnode)
        (serveRes : Except String (List (Option Vnode))) w,
        st.shutdown = true →
        (Notify now st dial target self serveRes w).1 =
          Except.error NetErr.shutdown) ∧
    (∀ now (st : TransState) dial (vn : Vnode) (n : Nat) (k : List Nat)
        (serveRes : Except String (List (Option Vnode))) w,
        st.shutdown = true →
        (FindSuccessors now st dial vn n k serveRes w).1 =
          Except.error NetErr.shutdown) ∧
    (∀ now (st : TransState) dial (target self : Vnode)
        (serveRes : Except String Unit) w, st.shutdown = true →
        (ClearPredecessor now st dial target self serveRes w).1 =
          Except.error NetErr.shutdown) ∧
    (∀ now (st : TransState) dial (target self : Vnode)
        (serveRes : Except String Unit) w, st.shutdown = true →
        (SkipSuccessor now st dial target self serveRes w).1 =
          Except.error NetErr.shutdown) ∧
    (∀ (st : TransState) (vn : Vnode), (regGet st.localReg vn).isSome = true →
        (PingServe st vn).1 = (true, none)) ∧
    (∀ (st : TransState) (vn : Vnode), (regGet st.localReg vn).isSome = false →
        (PingServe st vn).1 = (false, some ("target vnode not found"))) ∧
    (∀ (st : TransState) (host : String),
        (ListVnodesServe st host).1.2 = none) ∧
    (∀ (st : TransState) (vn : Vnode)
        (hres : Except String (Option Vnode)),
        (regGet st.localReg vn).isSome = true →
        (GetPredecessorServe st vn hres).1.2 = errOf hres) ∧
    (∀ (st : TransState) (vn : Vnode)
        (hres : Except String (Option Vnode)),
        (regGet st.localReg vn).isSome = false →
        (GetPredecessorServe st vn hres).1 =
          (none, some ("target vnode not found"))) ∧
    (∀ (st : TransState) (target self : Vnode)
        (hres : Except String (List (Option Vnode))),
        (regGet st.localReg target).isSome = true →
        (NotifyServe st target self hres).1.2 = errOf hres) ∧
    (∀ (st : TransState) (target self : Vnode)
        (hres : Except String (List (Option Vnode))),
        (regGet st.localReg target).isSome = false →
        (NotifyServe st target self hres).1 =
          ([], some ("target vnode not found"))) ∧
    (∀ (st : TransState) (vn : Vnode) (n : Nat) (key : List Nat)
        (hres : Except String (List (Option Vnode))),
        (regGet st.localReg vn).isSome = true →
        (FindSuccessorsServe st vn n key hres).1.2 = errOf hres) ∧
    (∀ (st : TransState) (vn : Vnode) (n : Nat) (key : List Nat)
        (hres : Except String (List (Option Vnode))),
        (regGet st.localReg vn).isSome = false →
        (FindSuccessorsServe st vn n key hres).1 =
          ([], some ("target vnode not found"))) ∧
    (∀ (st : TransState) (target self : Vnode) (herr : Option String),
        (regGet st.localReg target).isSome = true →
        (ClearPredecessorServe st target self herr).1 = herr) ∧
    (∀ (st : TransState) (target self : Vnode) (herr : Option String),
        (regGet st.localReg target).isSome = false →
        (ClearPredecessorServe st target self herr).1 =
          some ("target vnode not found")) ∧
    (∀ (st : TransState) (target self : Vnode) (herr : Option String),
        (regGet st.localReg target).isSome = true →
        (SkipSuccessorServe st target self herr).1 = herr) ∧
    (∀ (st : TransState) (target self : Vnode) (herr : Option String),
        (regGet st.localReg target).isSome = false →
        (SkipSuccessorServe st target self herr).1 =
          some ("target vnode not found")) := by
  refine ⟨?_, ?_, ?_, ?_, ?_, ?_, ?_, ?_, ?_, ?_, ?_, ?_, ?_, ?_, ?_, ?_,
    ?_, ?_, ?_, ?_⟩
  · intro now st dial host serveRes w h
    simp [ListVnodes, outboundCall, getConn_shutdown st dial host h]
  · intro now st dial target serveRes w h
    simp [Ping, outboundCall, getConn_shutdown st dial target.Host h]
  · intro now st dial vn serveRes w h
    simp [GetPredecessor, outboundCall, getConn_shutdown st dial vn.Host h]
  · intro now st dial target self serveRes w h
    simp [Notify, outboundCall, getConn_shutdown st dial target.Host h]
  · intro now st dial vn n k serveRes w h
    simp [FindSuccessors, outboundCall, getConn_shutdown st dial vn.Host h]
  · intro now st dial target self serveRes w h
    simp [ClearPredecessor, outboundCall, getConn_shutdown st dial target.Host h]
  · intro now st dial target self serveRes w h
    simp [SkipSuccessor, outboundCall, getConn_shutdown st dial target.Host h]
  · intro st vn h
    simp [PingServe, h]
  · intro st vn h
    simp [PingServe, h]
  · intro st host
    simp [ListVnodesServe]
  · intro st vn hres h
    cases hres with
    | error e => simp [GetPredecessorServe, errOf, h]
    | ok v =>
      cases v with
      | none => simp [GetPredecessorServe, errOf, h]
      | some p => simp [GetPredecessorServe, errOf, h]
  · intro st vn hres h
    simp [GetPredecessorServe, h]
  · intro st target self hres h
    cases hres with
    | error e => simp [NotifyServe, errOf, h]
    | ok nodes => simp [NotifyServe, errOf, h]
  · intro st target self hres h
    simp [NotifyServe, h]
  · intro st vn n key hres h
    cases hres with
    | error e => simp [FindSuccessorsServe, errOf, h]
    | ok nodes => simp [FindSuccessorsServe, errOf, h]
  · intro st vn n key hres h
    simp [FindSuccessorsServe, h]
  · intro st target self herr h
    simp [ClearPredecessorServe, h]
  · intro st target self herr h
    simp [ClearPredecessorServe, h]
  · intro st target self herr h
    simp [SkipSuccessorServe, h]
  · intro st target self herr h
    simp [SkipSuccessorServe, h]

/-- C2 amended, witness at a concrete input. -/
theorem outbound_ops_always_use_pool_witness :
    (Ping 0 ⟨[([7], ⟨[7], "hostA", []⟩)], [], [], true⟩
        (Except.ok ⟨"hostA", 1, 0⟩) ⟨[7], "hostA", []⟩
        (Except.ok true) true).1 = Except.error NetErr.shutdown := by
  exact outbound_ops_always_use_pool.2.1 0
    ⟨[([7], ⟨[7], "hostA", []⟩)], [], [], true⟩
    (Except.ok ⟨"hostA", 1, 0⟩) ⟨[7], "hostA", []⟩ (Except.ok true) true rfl

/-- C6: pool checkout/return discipline. Once the shutdown flag is set
every new checkout fails; a returned connection is pooled with its
last-used instant refreshed when the transport is live and closed instead
when it is shut down; and an outbound call that checked out a connection
leaves exactly one occurrence of it in the state (pooled or closed),
including on the timeout path. -/
theorem conn_checkout_return_discipline :
    (∀ (st : TransState) (dial : Except String OutConn) (host : String),
        st.shutdown = true →
        getConn st dial host = Except.error NetErr.shutdown) ∧
    (∀ (now : Nat) (st : TransState) (c : OutConn), st.shutdown = false →
        returnConn now st c =
          { st with pool := poolAppend st.pool c.host { c with used := now } }) ∧
    (∀ (now : Nat) (st : TransState) (c : OutConn), st.shutdown = true →
        returnConn now st c =
          { st with closed := { c with used := now } :: st.closed }) ∧
    (∀ (α : Type) (now : Nat) (st : TransState) (dial : Except String OutConn)
        (host : String) (serveRes : Except String α) (w : Bool)
        (c : OutConn) (st1 : TransState),
        getConn st dial host = Except.ok (c, st1) →
        connCount st1 c.id = 0 →
        connCount (outboundCall now st dial host serveRes w).2 c.id = 1) := by
  refine ⟨getConn_shutdown, ?_, ?_, ?_⟩
  · intro now st c h
    simp [returnConn, h]
  · intro now st c h
    simp [returnConn, h]
  · intro α now st dial host serveRes w c st1 hconn hfresh
    simp only [outboundCall, hconn]
    rw [connCount_returnConn, hfresh]
    simp

/-- C6 witness: a concrete checkout followed by the full call pipeline
leaves exactly one occurrence of the connection. -/
theorem conn_checkout_return_discipline_witness :
    connCount (outboundCall 9 ⟨[], [], [], false⟩
        (Except.ok ⟨"hostA", 3, 0⟩) "hostA"
        (Except.ok true) false).2 3 = 1 := by
  exact conn_checkout_return_discipline.2.2.2 Bool 9 ⟨[], [], [], false⟩
    (Except.ok ⟨"hostA", 3, 0⟩) "hostA" (Except.ok true) false
    ⟨"hostA", 3, 0⟩ ⟨[], [], [], false⟩ (by rfl) (by rfl)

/-- C8: a GetPredecessorServe request for a registered vnode whose handler
reports no predecessor (nil vnode, nil error) is answered with the
zero-valued vnode record and a nil error. -/
theorem getPredecessorServe_zero_on_no_predecessor :
    ∀ (st : TransState) (vn : Vnode)
      (handlerRes : Except String (Option Vnode)),
      (regGet st.localReg vn).isSome = true →
      handlerRes = Except.ok none →
      GetPredecessorServe st vn handlerRes = ((some zeroVnode, none), st) := by
  intro st vn handlerRes hreg hres
  subst hres
  simp [GetPredecessorServe, hreg]

/-- C8 witness at a concrete input. -/
theorem getPredecessorServe_zero_on_no_predecessor_witness :
    GetPredecessorServe ⟨[([7], ⟨[7], "hostA", []⟩)], [], [], false⟩
        ⟨[7], "hostA", []⟩ (Except.ok none) =
      ((some zeroVnode, none), ⟨[([7], ⟨[7], "hostA", []⟩)], [], [], false⟩) := by
  exact getPredecessorServe_zero_on_no_predecessor
    ⟨[([7], ⟨[7], "hostA", []⟩)], [], [], false⟩ ⟨[7], "hostA", []⟩
    (Except.ok none) (by decide) rfl

/-- C9: PingServe answers (true, nil) exactly for registered vnode ids,
repeated pings keep answering (true, nil) and leave the transport state
unchanged, and an unregistered id gets the not-found error. -/
theorem pingServe_registered_behaviour :
    ∀ (st : TransState) (vn : Vnode),
      ((regGet st.localReg vn).isSome = true →
        PingServe st vn = ((true, none), st) ∧
        PingServe (PingServe st vn).2 vn = ((true, none), st)) ∧
      ((regGet st.localReg vn).isSome = false →
        PingServe st vn = ((false, some ("target vnode not found")), st)) := by
  intro st vn
  constructor
  · intro h
    constructor
    · simp [PingServe, h]
    · simp [PingServe, h]
  · intro h
    simp [PingServe, h]

/-- C9 witness at concrete inputs: a registered id pings true twice, an
unregistered id gets the not-found error. -/
theorem pingServe_registered_behaviour_witness :
    PingServe ⟨[([7], ⟨[7], "hostA", []⟩)], [], [], false⟩ ⟨[7], "hostA", []⟩ =
      ((true, none), ⟨[([7], ⟨[7], "hostA", []⟩)], [], [], false⟩) ∧
    PingServe ⟨[], [], [], false⟩ ⟨[7], "hostA", []⟩ =
      ((false, some ("target vnode not found")), ⟨[], [], [], false⟩) := by
  constructor
  · exact ((pingServe_registered_behaviour
      ⟨[([7], ⟨[7], "hostA", []⟩)], [], [], false⟩ ⟨[7], "hostA", []⟩).1
      (by decide)).1
  · exact (pingServe_registered_behaviour
      ⟨[], [], [], false⟩ ⟨[7], "hostA", []⟩).2 (by decide)

/-! ### Join (chord.go, lines 152-202) -/

/-- The successor assignment loop in Join: for each index and entry of the
reply, write the entry at that index of the vnode's successor array.
Writing past the end of the array is an index-out-of-range panic,
modelled as none. -/
def assignLoop : List (Option Vnode) → Nat → List (Option Vnode) →
    Option (List (Option Vnode))
  | arr, _, [] => some arr
  | arr, idx, s :: rest =>
    if idx < arr.length then assignLoop (arr.set idx s) (idx + 1) rest
    else none

/-- Outcome of a Join run: the returned value (the seeded successor arrays
of the ring's vnodes, or the error), the vnodes registered with the
transport, whether the delegate dispatcher was started, and which vnodes
ran the immediate stabilization pass. -/
structure JoinOutcome where
  result : Except NetErr (List (List (Option Vnode)))
  registered : List Vnode
  dispatcherStarted : Bool
  stabilized : List Nat
deriving Repr

/-- One vnode's seeding step in Join's loop: inspect the FindSuccessors
reply, fail on an error or an empty reply, otherwise assign the entries
into a successor array of NumSuccessors entries (initially all nil). -/
def seedOne (numSuccessors : Nat)
    (reply : Except NetErr (List (Option Vnode))) :
    Option (Except NetErr (List (Option Vnode))) :=
  match reply with
  | Except.error e => some (Except.error e)
  | Except.ok succs =>
    if succs.isEmpty then
      some (Except.error (NetErr.app ("successor vnodes not found")))
    else
      match assignLoop (List.replicate numSuccessors none) 0 succs with
      | none => none
      | some arr => some (Except.ok arr)

/-- Join's seeding loop over the ring's vnodes, by index; it stops at the
first failing vnode. -/
def joinLoop (numSuccessors : Nat)
    (seedRes : Nat → Except NetErr (List (Option Vnode))) :
    List Nat → Option (Except NetErr (List (List (Option Vnode))))
  | [] => some (Except.ok [])
  | i :: rest =>
    match seedOne numSuccessors (seedRes i) with
    | none => none
    | some (Except.error e) => some (Except.error e)
    | some (Except.ok arr) =>
      match joinLoop numSuccessors seedRes rest with
      | none => none
      | some (Except.error e) => some (Except.error e)
      | some (Except.ok arrs) => some (Except.ok (arr :: arrs))

/-- Embedding of Join from chord.go. Modelled from the spec: ring.init and
localVnode.init are not under src/; per the spec, Create and Join
instantiate the ring's NumVnodes vnodes at creation time, registration
with the transport happens once per vnode at vnode creation, and each
vnode's successor array has the configured successor-list size. On top of
that, Join as in chord.go: list the bootstrap host's vnodes (oracle
listRes) and fail when the call fails or the list is empty; create — and
thereby register — the local vnodes; seed each vnode from its
FindSuccessors reply (oracle seedRes, indexed by vnode) and fail at the
first error or empty reply; then start the delegate dispatcher when one
is configured and run one immediate stabilization pass per vnode. -/
def joinModel (numVnodes numSuccessors : Nat) (localVnodes : Nat → Vnode)
    (hasDelegate : Bool) (listRes : Except NetErr (List Vnode))
    (seedRes : Nat → Except NetErr (List (Option Vnode))) :
    Option JoinOutcome :=
  match listRes with
  | Except.error e => some ⟨Except.error e, [], false, []⟩
  | Except.ok hosts =>
    if hosts.isEmpty then
      some ⟨Except.error (NetErr.app ("remote host has no vnodes")), [], false, []⟩
    else
      let reg := (List.range numVnodes).map localVnodes
      match joinLoop numSuccessors seedRes (List.range numVnodes) with
      | none => none
      | some (Except.error e) => some ⟨Except.error e, reg, false, []⟩
      | some (Except.ok arrs) =>
        some ⟨Except.ok arrs, reg, hasDelegate, List.range numVnodes⟩

/-- The assignment loop, started at index idx, stays in bounds exactly
when the reply is empty or fits in the remainder of the array. -/
theorem assignLoop_isSome_iff :
    ∀ (succs arr : List (Option Vnode)) (idx : Nat),
      (assignLoop arr idx succs).isSome ↔
        (succs = [] ∨ idx + succs.length ≤ arr.length) := by
  intro succs
  induction succs with
  | nil =>
    intro arr idx
    simp [assignLoop]
  | cons s rest ih =>
    intro arr idx
    simp only [assignLoop]
    by_cases h : idx < arr.length
    · rw [if_pos h, ih]
      simp only [List.length_set, List.length_cons]
      constructor
      · rintro (hr | hle)
        · subst hr
          right
          simp
          omega
        · right
          omega
      · rintro (hc | hle)
        · cases hc
        · right
          omega
    · rw [if_neg h]
      simp only [Option.isSome_none, Bool.false_eq_true, false_iff]
      rintro (hc | hle)
      · cases hc
      · simp only [List.length_cons] at hle
        omega

/-- The seeding loop never panics when every successful reply fits in the
configured successor-list size, and it fails exactly when some vnode in
the list has a failing or empty reply. -/
theorem joinLoop_spec (numSuccessors : Nat)
    (seedRes : Nat → Except NetErr (List (Option Vnode)))
    (hfit : ∀ i succs, seedRes i = Except.ok succs →
      succs.length ≤ numSuccessors) :
    ∀ l : List Nat, ∃ r, joinLoop numSuccessors seedRes l = some r ∧
      ((∃ e, r = Except.error e) ↔
        ∃ i ∈ l, (∃ e, seedRes i = Except.error e) ∨ seedRes i = Except.ok []) := by
  intro l
  induction l with
  | nil =>
    refine ⟨Except.ok [], rfl, ?_⟩
    simp
  | cons i rest ih =>
    rcases ih with ⟨r, hr, hiff⟩
    cases hs : seedRes i with
    | error e =>
      refine ⟨Except.error e, ?_, ?_⟩
      · simp [joinLoop, seedOne, hs]
      · simp only [List.mem_cons]
        constructor
        · intro _
          exact ⟨i, Or.inl rfl, Or.inl ⟨e, hs⟩⟩
        · intro _
          exact ⟨e, rfl⟩
    | ok succs =>
      by_cases hemp : succs.isEmpty
      · have hnil : succs = [] := List.isEmpty_iff.mp hemp
        refine ⟨Except.error (NetErr.app ("successor vnodes not found")), ?_, ?_⟩
        · simp [joinLoop, seedOne, hs, hemp]
        · simp only [List.mem_cons]
          constructor
          · intro _
            subst hnil
            exact ⟨i, Or.inl rfl, Or.inr hs⟩
          · intro _
            exact ⟨NetErr.app ("successor vnodes not found"), rfl⟩
      · have hlen : succs.length ≤ numSuccessors := hfit i succs hs
        have hsome : (assignLoop (List.replicate numSuccessors none) 0 succs).isSome := by
          rw [assignLoop_isSome_iff]
          right
          simp [hlen]
        rcases Option.isSome_iff_exists.mp hsome with ⟨arr, harr⟩
        cases r with
        | error e =>
          refine ⟨Except.error e, ?_, ?_⟩
          · simp [joinLoop, seedOne, hs, hemp, harr, hr]
          · simp only [List.mem_cons]
            constructor
            · intro _
              rcases hiff.mp ⟨e, rfl⟩ with ⟨j, hj, hbad⟩
              exact ⟨j, Or.inr hj, hbad⟩
            · intro _
              exact ⟨e, rfl⟩
        | ok arrs =>
          refine ⟨Except.ok (arr :: arrs), ?_, ?_⟩
          · simp [joinLoop, seedOne, hs, hemp, harr, hr]
          · simp only [List.mem_cons]
            constructor
            · rintro ⟨e, he⟩
              cases he
            · rintro ⟨j, hj | hj, hbad⟩
              · subst hj
                rcases hbad with ⟨e, he⟩ | he
                · rw [hs] at he
                  cases he
                · rw [hs] at he
                  injection he with hh
                  subst hh
                  simp at hemp
              · rcases hiff.mpr ⟨j, hj, hbad⟩ with ⟨e, he⟩
                cases he

/-- C3 counterexample: a Join run in which ListVnodes succeeds with one
remote vnode and the (single) local vnode's seed call fails: Join returns
the error, yet the attempted ring's vnode is still registered with the
transport — durable state survives the failed Join. -/
theorem join_seed_failure_leaves_registrations :
    joinModel 1 8 (fun _ => ⟨[9], "localhost", []⟩) false
        (Except.ok [⟨[1], "remotehost", []⟩])
        (fun _ => Except.error (NetErr.dial ("connection refused"))) =
      some ⟨Except.error (NetErr.dial ("connection refused")),
            [⟨[9], "localhost", []⟩], false, []⟩ ∧
    ([(⟨[9], "localhost", []⟩ : Vnode)] : List Vnode) ≠ [] := by
  constructor
  · rfl
  · intro h
    cases h

/-- C3 amended: whenever Join returns an error it has scheduled no
stabilization task and started no delegate dispatcher; when the error
comes from the bootstrap ListVnodes call (a failure or an empty vnode
set) nothing is registered with the transport; but when the error comes
after a successful non-empty listing — that is, from a per-vnode seed
call — all NumVnodes created vnodes remain registered. -/
theorem join_error_no_tasks_but_registrations_remain :
    ∀ (numVnodes numSuccessors : Nat) (localVnodes : Nat → Vnode)
      (hasDelegate : Bool) (listRes : Except NetErr (List Vnode))
      (seedRes : Nat → Except NetErr (List (Option Vnode)))
      (o : JoinOutcome) (e : NetErr),
      joinModel numVnodes numSuccessors localVnodes hasDelegate listRes
        seedRes = some o →
      o.result = Except.error e →
      o.dispatcherStarted = false ∧ o.stabilized = [] ∧
        (((∃ e2, listRes = Except.error e2) ∨ listRes = Except.ok []) →
          o.registered = []) ∧
        (∀ hosts, listRes = Except.ok hosts → hosts ≠ [] →
          o.registered = (List.range numVnodes).map localVnodes) := by
  intro numVnodes numSuccessors localVnodes hasDelegate listRes seedRes o e
    hj hres
  cases listRes with
  | error e2 =>
    simp only [joinModel] at hj
    injection hj with hj
    subst hj
    refine ⟨rfl, rfl, fun _ => rfl, ?_⟩
    intro hosts heq hne
    cases heq
  | ok hosts =>
    by_cases hemp : hosts.isEmpty
    · have hnil : hosts = [] := List.isEmpty_iff.mp hemp
      simp only [joinModel, if_pos hemp] at hj
      injection hj with hj
      subst hj
      refine ⟨rfl, rfl, fun _ => rfl, ?_⟩
      intro hosts2 heq hne
      injection heq with heq
      subst heq
      exact absurd hnil hne
    · simp only [joinModel, if_neg hemp] at hj
      cases hl : joinLoop numSuccessors seedRes (List.range numVnodes) with
      | none =>
        rw [hl] at hj
        cases hj
      | some r =>
        rw [hl] at hj
        cases r with
        | error e3 =>
          injection hj with hj
          subst hj
          refine ⟨rfl, rfl, ?_, fun _ _ _ => rfl⟩
          rintro (⟨e2, he⟩ | he)
          · cases he
          · injection he with he
            subst he
            simp at hemp
        | ok arrs =>
          injection hj with hj
          subst hj
          simp at hres

/-- C3 amended, witness at the concrete failing seed call. -/
theorem join_error_no_tasks_but_registrations_remain_witness :
    (⟨Except.error (NetErr.dial ("connection refused")),
        [⟨[9], "localhost", []⟩], false, []⟩ : JoinOutcome).dispatcherStarted
        = false ∧
    (⟨Except.error (NetErr.dial ("connection refused")),
        [⟨[9], "localhost", []⟩], false, []⟩ : JoinOutcome).stabilized = [] ∧
    (((∃ e2, (Except.ok [⟨[1], "remotehost", []⟩] :
          Except NetErr (List Vnode)) = Except.error e2) ∨
        (Except.ok [⟨[1], "remotehost", []⟩] :
          Except NetErr (List Vnode)) = Except.ok []) →
      (⟨Except.error (NetErr.dial ("connection refused")),
        [⟨[9], "localhost", []⟩], false, []⟩ : JoinOutcome).registered = []) ∧
    (∀ hosts, (Except.ok [⟨[1], "remotehost", []⟩] :
        Except NetErr (List Vnode)) = Except.ok hosts → hosts ≠ [] →
      (⟨Except.error (NetErr.dial ("connection refused")),
        [⟨[9], "localhost", []⟩], false, []⟩ : JoinOutcome).registered =
        (List.range 1).map (fun _ => ⟨[9], "localhost", []⟩)) := by
  exact join_error_no_tasks_but_registrations_remain 1 8
    (fun _ => ⟨[9], "localhost", []⟩) false
    (Except.ok [⟨[1], "remotehost", []⟩])
    (fun _ => Except.error (NetErr.dial ("connection refused")))
    ⟨Except.error (NetErr.dial ("connection refused")),
      [⟨[9], "localhost", []⟩], false, []⟩
    (NetErr.dial ("connection refused")) rfl rfl

/-- C5: provided every successful seed reply fits in the configured
successor-list size (Join has no guard against over-long replies, claim
C10), Join returns an error exactly when the bootstrap ListVnodes call
fails or returns no vnodes — the latter with the "remote host has no
vnodes" error — or some local vnode's seed call fails or returns an
empty successor list; otherwise it returns the seeded ring and no
error. -/
theorem join_error_exactly_on_formation_failures :
    ∀ (numVnodes numSuccessors : Nat) (localVnodes : Nat → Vnode)
      (hasDelegate : Bool) (listRes : Except NetErr (List Vnode))
      (seedRes : Nat → Except NetErr (List (Option Vnode))),
      (∀ i succs, seedRes i = Except.ok succs →
        succs.length ≤ numSuccessors) →
      ∃ o, joinModel numVnodes numSuccessors localVnodes hasDelegate listRes
          seedRes = some o ∧
        ((∃ e, o.result = Except.error e) ↔
          ((∃ e, listRes = Except.error e) ∨ listRes = Except.ok [] ∨
            ∃ i < numVnodes, (∃ e, seedRes i = Except.error e) ∨
              seedRes i = Except.ok [])) ∧
        (listRes = Except.ok [] →
          o.result = Except.error (NetErr.app ("remote host has no vnodes"))) := by
  intro numVnodes numSuccessors localVnodes hasDelegate listRes seedRes hfit
  cases listRes with
  | error e =>
    refine ⟨⟨Except.error e, [], false, []⟩, by simp [joinModel], ?_, ?_⟩
    · apply iff_of_true
      · exact ⟨e, rfl⟩
      · exact Or.inl ⟨e, rfl⟩
    · intro he
      cases he
  | ok hosts =>
    by_cases hemp : hosts.isEmpty
    · have hnil : hosts = [] := List.isEmpty_iff.mp hemp
      subst hnil
      refine ⟨⟨Except.error (NetErr.app ("remote host has no vnodes")), [],
          false, []⟩, by simp [joinModel], ?_, fun _ => rfl⟩
      apply iff_of_true
      · exact ⟨NetErr.app ("remote host has no vnodes"), rfl⟩
      · exact Or.inr (Or.inl rfl)
    · rcases joinLoop_spec numSuccessors seedRes hfit (List.range numVnodes)
        with ⟨r, hr, hiffr⟩
      cases r with
      | error e =>
        refine ⟨⟨Except.error e,
            (List.range numVnodes).map localVnodes, false, []⟩, ?_, ?_, ?_⟩
        · simp only [joinModel, if_neg hemp, hr]
        · apply iff_of_true
          · exact ⟨e, rfl⟩
          · rcases hiffr.mp ⟨e, rfl⟩ with ⟨i, hi, hbad⟩
            exact Or.inr (Or.inr ⟨i, List.mem_range.mp hi, hbad⟩)
        · intro he
          injection he with he
          subst he
          simp at hemp
      | ok arrs =>
        refine ⟨⟨Except.ok arrs, (List.range numVnodes).map localVnodes,
            hasDelegate, List.range numVnodes⟩, ?_, ?_, ?_⟩
        · simp only [joinModel, if_neg hemp, hr]
        · apply iff_of_false
          · rintro ⟨e, he⟩
            cases he
          · rintro (⟨e, he⟩ | he | ⟨i, hi, hbad⟩)
            · cases he
            · injection he with he
              subst he
              simp at hemp
            · rcases hiffr.mpr ⟨i, List.mem_range.mpr hi, hbad⟩ with ⟨e, he⟩
              cases he
        · intro he
          injection he with he
          subst he
          simp at hemp

/-- C5 witness: a concrete successful Join (hypothesis and both iff sides
evaluated at one vnode, one remote host, one-entry reply). -/
theorem join_error_exactly_on_formation_failures_witness :
    ∃ o, joinModel 1 2 (fun _ => ⟨[9], "localhost", []⟩) false
        (Except.ok [⟨[1], "remotehost", []⟩])
        (fun _ => Except.ok [some ⟨[1], "remotehost", []⟩]) = some o ∧
      ((∃ e, o.result = Except.error e) ↔
        ((∃ e, (Except.ok [⟨[1], "remotehost", []⟩] :
            Except NetErr (List Vnode)) = Except.error e) ∨
          (Except.ok [⟨[1], "remotehost", []⟩] :
            Except NetErr (List Vnode)) = Except.ok [] ∨
          ∃ i < 1, (∃ e, (Except.ok [some ⟨[1], "remotehost", []⟩] :
              Except NetErr (List (Option Vnode))) = Except.error e) ∨
            (Except.ok [some ⟨[1], "remotehost", []⟩] :
              Except NetErr (List (Option Vnode))) = Except.ok [])) ∧
      ((Except.ok [⟨[1], "remotehost", []⟩] :
          Except NetErr (List Vnode)) = Except.ok [] →
        o.result = Except.error (NetErr.app ("remote host has no vnodes"))) := by
  exact join_error_exactly_on_formation_failures 1 2
    (fun _ => ⟨[9], "localhost", []⟩) false
    (Except.ok [⟨[1], "remotehost", []⟩])
    (fun _ => Except.ok [some ⟨[1], "remotehost", []⟩])
    (fun i succs h => by
      injection h with hh
      subst hh
      decide)

/-- C10: the successor assignment in Join stays in bounds exactly when the
reply has at most as many entries as the vnode's successor array (the
configured successor-list size); and Join itself has no guard enforcing
this — a three-entry reply against a two-slot array makes the whole Join
run panic (evaluate to none). -/
theorem join_assign_inbounds_iff :
    (∀ (arr succs : List (Option Vnode)),
        (assignLoop arr 0 succs).isSome ↔ succs.length ≤ arr.length) ∧
    joinModel 1 2 (fun _ => ⟨[9], "localhost", []⟩) false
        (Except.ok [⟨[1], "remotehost", []⟩])
        (fun _ => Except.ok [some ⟨[1], "remotehost", []⟩,
          some ⟨[2], "remotehost", []⟩, some ⟨[3], "remotehost", []⟩]) =
      none := by
  constructor
  · intro arr succs
    rw [assignLoop_isSome_iff]
    cases succs <;> simp
  · rfl

/-! ### The idle-connection reaper (net_grpc.go, reapOnce) -/

/-- The idle test used by the sweep: the time since the connection was
last used exceeds the configured max-idle threshold. -/
def expired (now maxIdle : Nat) (c : OutConn) : Bool :=
  decide (maxIdle < now - c.used)

/-- The per-host sweep loop of reapOnce: walk the slice with index i below
the live length max; an expired connection is closed (recorded in the
accumulator), overwritten by the element at max-1 (which is set to nil),
max shrinks and the index is re-examined; finally the slice is kept only
up to max. An out-of-range read or a nil entry below max would be a
panic, modelled as none. -/
def reapLoop (p : OutConn → Bool) (conns : List (Option OutConn))
    (i max : Nat) (closedAcc : List OutConn) :
    Option (List (Option OutConn) × List OutConn) :=
  if h : i < max then
    match conns[i]? with
    | none => none
    | some none => none
    | some (some c) =>
      if p c then
        match conns[max - 1]? with
        | none => none
        | some last =>
          reapLoop p ((conns.set i last).set (max - 1) none) i (max - 1)
            (c :: closedAcc)
      else reapLoop p conns (i + 1) max closedAcc
  else some (conns.take max, closedAcc)
termination_by max - i
decreasing_by
  all_goals omega

/-- One host's sweep: the loop starts at index 0 with the live length
equal to the slice length and no connection closed yet. -/
def reapHost (p : OutConn → Bool) (conns : List OutConn) :
    Option (List (Option OutConn) × List OutConn) :=
  reapLoop p (conns.map some) 0 conns.length []

/-- Embedding of GRPCTransport.reapOnce: sweep every host's free list,
collecting the closed connections. -/
def reapOnce (now maxIdle : Nat) (pool : List (String × List OutConn)) :
    Option (List (String × List (Option OutConn)) × List OutConn) :=
  match pool with
  | [] => some ([], [])
  | (host, conns) :: rest =>
    match reapHost (expired now maxIdle) conns with
    | none => none
    | some (kept, cl) =>
      match reapOnce now maxIdle rest with
      | none => none
      | some (pool2, cls) => some ((host, kept) :: pool2, cl ++ cls)

/-- Unfolding: the sweep loop stops when the index reaches the live
length and keeps the slice up to that length. -/
theorem reapLoop_exit (p : OutConn → Bool) (conns : List (Option OutConn))
    (i max : Nat) (acc : List OutConn) (h : ¬ i < max) :
    reapLoop p conns i max acc = some (conns.take max, acc) := by
  rw [reapLoop, dif_neg h]

/-- Unfolding: a live connection that is not idle-expired is kept and the
index advances. -/
theorem reapLoop_keep (p : OutConn → Bool) (conns : List (Option OutConn))
    (i max : Nat) (acc : List OutConn) (c : OutConn) (h : i < max)
    (hc : conns[i]? = some (some c)) (hp : p c = false) :
    reapLoop p conns i max acc = reapLoop p conns (i + 1) max acc := by
  rw [reapLoop, dif_pos h, hc]
  simp [hp]

/-- Unfolding: an idle-expired connection is closed, the last live entry
is swapped into its slot and nil-ed out, and the live length shrinks. -/
theorem reapLoop_swap (p : OutConn → Bool) (conns : List (Option OutConn))
    (i max : Nat) (acc : List OutConn) (c : OutConn) (last : Option OutConn)
    (h : i < max) (hc : conns[i]? = some (some c)) (hp : p c = true)
    (hl : conns[max - 1]? = some last) :
    reapLoop p conns i max acc =
      reapLoop p ((conns.set i last).set (max - 1) none) i (max - 1)
        (c :: acc) := by
  rw [reapLoop, dif_pos h, hc]
  simp [hp, hl]

/-- filterMap id over an Option list: a present head is kept. -/
theorem filterMap_id_cons_some (c : OutConn) (l : List (Option OutConn)) :
    (some c :: l).filterMap id = c :: l.filterMap id := rfl

/-- filterMap id over an Option list: an absent head is dropped. -/
theorem filterMap_id_cons_none (l : List (Option OutConn)) :
    ((none : Option OutConn) :: l).filterMap id = l.filterMap id := rfl

/-- The sweep loop, started at index i with live length max over a slice
whose live prefix has no nil entries, terminates without panic; the kept
values are, up to order, the already-scanned prefix plus the non-expired
part of the unscanned live segment, and the closed connections are, up to
order, the expired part of that segment plus the accumulator. -/
theorem reapLoop_spec (p : OutConn → Bool) :
    ∀ (k i max : Nat) (conns : List (Option OutConn)) (acc : List OutConn),
      max - i ≤ k → i ≤ max → max ≤ conns.length →
      (∀ j, j < max → ∃ c, conns[j]? = some (some c)) →
      ∃ kept closedL, reapLoop p conns i max acc = some (kept, closedL) ∧
        (kept.filterMap id).Perm
          ((conns.take i).filterMap id ++
            (((conns.drop i).take (max - i)).filterMap id).filter
              (fun c => !(p c))) ∧
        closedL.Perm
          ((((conns.drop i).take (max - i)).filterMap id).filter p ++ acc) := by
  intro k
  induction k with
  | zero =>
    intro i max conns acc hk hi hlen hent
    have hieq : i = max := by omega
    subst hieq
    refine ⟨conns.take i, acc,
      reapLoop_exit p conns i i acc (by omega), ?_, ?_⟩
    · simp
    · simp
  | succ k ih =>
    intro i max conns acc hk hi hlen hent
    by_cases h : i < max
    case neg =>
      have hieq : i = max := by omega
      subst hieq
      refine ⟨conns.take i, acc,
        reapLoop_exit p conns i i acc (by omega), ?_, ?_⟩
      · simp
      · simp
    case pos =>
      obtain ⟨c, hc⟩ := hent i h
      have hli : i < conns.length := by omega
      have hgetc : conns[i] = some c := by
        obtain ⟨hh, he⟩ := List.getElem?_eq_some.mp hc
        exact he
      have hdropi : conns.drop i = some c :: conns.drop (i + 1) := by
        rw [List.drop_eq_getElem_cons hli, hgetc]
      by_cases hp : p c = true
      case neg =>
        have hpf : p c = false := by simpa using hp
        have hstep := reapLoop_keep p conns i max acc c h hc hpf
        obtain ⟨kept, closedL, hres, hkept, hclosed⟩ :=
          ih (i + 1) max conns acc (by omega) (by omega) hlen hent
        have hMid : (conns.drop i).take (max - i) =
            some c :: (conns.drop (i + 1)).take (max - (i + 1)) := by
          have hs : max - i = (max - (i + 1)) + 1 := by omega
          rw [hs, hdropi, List.take_succ_cons]
        have htakei1 : conns.take (i + 1) = conns.take i ++ [some c] := by
          rw [List.take_succ, hc]
          rfl
        refine ⟨kept, closedL, hstep.trans hres, ?_, ?_⟩
        · rw [hMid, filterMap_id_cons_some, List.filter_cons]
          rw [htakei1, List.filterMap_append] at hkept
          simpa [hpf] using hkept
        · rw [hMid, filterMap_id_cons_some, List.filter_cons]
          simpa [hpf] using hclosed
      case pos =>
        obtain ⟨lc, hlast⟩ := hent (max - 1) (by omega)
        have hstep := reapLoop_swap p conns i max acc c (some lc) h hc hp hlast
        have hlen2 :
            max - 1 ≤ ((conns.set i (some lc)).set (max - 1) none).length := by
          simp only [List.length_set]
          omega
        have hent2 : ∀ j, j < max - 1 →
            ∃ d, ((conns.set i (some lc)).set (max - 1) none)[j]? =
              some (some d) := by
          intro j hj
          by_cases hji : j = i
          · subst hji
            refine ⟨lc, ?_⟩
            rw [List.getElem?_set, if_neg (by omega), List.getElem?_set,
              if_pos rfl, if_pos hli]
          · obtain ⟨d, hd⟩ := hent j (by omega)
            refine ⟨d, ?_⟩
            rw [List.getElem?_set, if_neg (by omega), List.getElem?_set,
              if_neg (by omega)]
            exact hd
        obtain ⟨kept, closedL, hres, hkept, hclosed⟩ :=
          ih i (max - 1) ((conns.set i (some lc)).set (max - 1) none)
            (c :: acc) (by omega) (by omega) hlen2 hent2
        have htakei : ((conns.set i (some lc)).set (max - 1) none).take i =
            conns.take i := by
          rw [List.set_take, List.set_take,
            List.set_eq_of_length_le
              (by simp only [List.length_set, List.length_take]; omega),
            List.set_eq_of_length_le
              (by simp only [List.length_take]; omega)]
        have hMid : (conns.drop i).take (max - i) =
            some c :: (conns.drop (i + 1)).take (max - 1 - i) := by
          have hs : max - i = (max - 1 - i) + 1 := by omega
          rw [hs, hdropi, List.take_succ_cons]
        have hmidperm :
            (((conns.drop i).take (max - i)).filterMap id).Perm
              (c :: ((((conns.set i (some lc)).set (max - 1) none).drop i).take
                (max - 1 - i)).filterMap id) := by
          by_cases hm0 : max - 1 - i = 0
          · rw [hMid, hm0]
            simp [filterMap_id_cons_some]
          · have hc2i : ((conns.set i (some lc)).set (max - 1) none)[i]? =
                some (some lc) := by
              rw [List.getElem?_set, if_neg (by omega), List.getElem?_set,
                if_pos rfl, if_pos hli]
            have hli2 : i < ((conns.set i (some lc)).set (max - 1) none).length := by
              simp only [List.length_set]
              omega
            have hgetc2 : ((conns.set i (some lc)).set (max - 1) none)[i] =
                some lc := by
              obtain ⟨hh, he⟩ := List.getElem?_eq_some.mp hc2i
              exact he
            have hdropi2 : ((conns.set i (some lc)).set (max - 1) none).drop i =
                some lc ::
                  ((conns.set i (some lc)).set (max - 1) none).drop (i + 1) := by
              rw [List.drop_eq_getElem_cons hli2, hgetc2]
            have hdrop2 :
                ((conns.set i (some lc)).set (max - 1) none).drop (i + 1) =
                  (conns.drop (i + 1)).set (max - 1 - (i + 1)) none := by
              rw [List.drop_set, if_neg (by omega), List.drop_set,
                if_pos (by omega)]
            have hT1 : (conns.drop (i + 1)).take (max - 1 - i) =
                (conns.drop (i + 1)).take (max - 1 - i - 1) ++ [some lc] := by
              have hs : max - 1 - i = (max - 1 - i - 1) + 1 := by omega
              rw [hs, List.take_succ, List.getElem?_drop]
              have hidx : i + 1 + (max - 1 - i - 1) = max - 1 := by omega
              rw [hidx, hlast]
              rfl
            have hMid2 :
                ((((conns.set i (some lc)).set (max - 1) none).drop i).take
                  (max - 1 - i)) =
                  some lc :: (conns.drop (i + 1)).take (max - 1 - i - 1) := by
              have hs : max - 1 - i = (max - 1 - i - 1) + 1 := by omega
              have hidx : max - 1 - (i + 1) = max - 1 - i - 1 := by omega
              conv_lhs => rw [hdropi2, hs, List.take_succ_cons, hdrop2, hidx,
                List.set_take]
              rw [List.set_eq_of_length_le (by simp [List.length_take])]
            rw [hMid, hMid2, hT1, filterMap_id_cons_some,
              filterMap_id_cons_some, List.filterMap_append]
            refine List.Perm.cons c ?_
            simpa [filterMap_id_cons_some] using
              (@List.perm_append_comm OutConn
                (((conns.drop (i + 1)).take (max - 1 - i - 1)).filterMap id)
                [lc])
        refine ⟨kept, closedL, hstep.trans hres, ?_, ?_⟩
        · refine hkept.trans ?_
          rw [htakei]
          refine List.Perm.append_left _ ?_
          have hfperm := (hmidperm.filter (fun c => !(p c))).symm
          rw [List.filter_cons] at hfperm
          simpa [hp] using hfperm
        · refine (hclosed.trans List.perm_middle).trans ?_
          have hfilterMid := hmidperm.filter p
          rw [List.filter_cons] at hfilterMid
          simp only [hp, if_true] at hfilterMid
          exact (hfilterMid.append (List.Perm.refl acc)).symm

/-- filterMap id undoes the all-present embedding of a free list. -/
theorem filterMap_id_map_some (l : List OutConn) :
    (l.map some).filterMap id = l := by
  simp

/-- One host's sweep terminates without panic, keeps (up to order) exactly
the non-expired connections and closes (up to order) exactly the expired
ones. -/
theorem reapHost_spec (p : OutConn → Bool) (conns : List OutConn) :
    ∃ kept closedL, reapHost p conns = some (kept, closedL) ∧
      (kept.filterMap id).Perm (conns.filter (fun c => !(p c))) ∧
      closedL.Perm (conns.filter p) := by
  obtain ⟨kept, closedL, hres, hkept, hclosed⟩ :=
    reapLoop_spec p conns.length 0 conns.length (conns.map some) []
      (by omega) (by omega) (by simp)
      (fun j hj => ⟨conns[j],
        by rw [List.getElem?_map, List.getElem?_eq_getElem hj]; rfl⟩)
  have hmap : ((conns.map some).drop 0).take (conns.length - 0) =
      conns.map some := by
    simp only [List.drop_zero, Nat.sub_zero]
    exact List.take_of_length_le (by simp)
  rw [hmap] at hkept hclosed
  rw [filterMap_id_map_some] at hkept hclosed
  simp only [List.take_zero, List.filterMap_nil, List.nil_append] at hkept
  simp only [List.append_nil] at hclosed
  exact ⟨kept, closedL, hres, hkept, hclosed⟩

/-- C7: one sweep pass of the reaper closes and removes exactly the pooled
connections whose idle time exceeds the max-idle threshold: for every
pool, reapOnce keeps, host by host and up to order, exactly the
connections within the threshold, and the set of closed connections is,
up to order, exactly the expired ones. -/
theorem reaper_closes_exactly_idle (now maxIdle : Nat) :
    ∀ pool : List (String × List OutConn),
      ∃ pool2 closedL, reapOnce now maxIdle pool = some (pool2, closedL) ∧
        List.Forall₂ (fun e1 e2 => e1.1 = e2.1 ∧
          (e2.2.filterMap id).Perm
            (e1.2.filter (fun c => !(expired now maxIdle c)))) pool pool2 ∧
        closedL.Perm
          ((pool.map (fun e => e.2.filter (expired now maxIdle))).flatten) := by
  intro pool
  induction pool with
  | nil => exact ⟨[], [], rfl, List.Forall₂.nil, by simp⟩
  | cons e rest ihp =>
    obtain ⟨host, conns⟩ := e
    obtain ⟨kept, cl, hh, hk, hc⟩ := reapHost_spec (expired now maxIdle) conns
    obtain ⟨pool2, cls, hr, hf, hcl⟩ := ihp
    refine ⟨(host, kept) :: pool2, cl ++ cls, ?_, ?_, ?_⟩
    · simp only [reapOnce, hh, hr]
    · exact List.Forall₂.cons ⟨rfl, hk⟩ hf
    · simp only [List.map_cons, List.flatten_cons]
      exact hc.append hcl

end Chord
